import Mathlib

/-!
# BattlEye RCon packet builders

A shallow embedding of `battleye/protocol.go`: the five packet builders of the
`protocol` value (`BuildPacket`, `BuildLoginPacket`, `BuildCmdPacket`,
`BuildKeepAlivePacket`, `BuildMsgAckPacket`), together with the pieces of the
package they call whose declarations live outside `protocol.go`
(`Type` and its constants, `Packet`, `makeChecksum`, `buildHeader`, `Verify`).
Those pieces are modelled from the specification and are marked as such.

Byte slices are lists of bytes.  All builders only ever `append` onto freshly
allocated slices, so no aliasing is observable and the functions are pure.
-/

namespace battleye

/-! ## Bytes and integers -/

/-- Go `byte`: an unsigned 8-bit value. -/
abbrev Byte := Fin 256

/-- Go conversion `byte(x)` of an unsigned integer value `x`: the low 8 bits. -/
def byteOf (n : Nat) : Byte := ⟨n % 256, Nat.mod_lt n (by decide)⟩

/-- The byte of a character constant such as `'B'` (its code point, truncated). -/
def charByte (c : Char) : Byte := byteOf c.toNat

/-- Go `string`: an immutable sequence of bytes. -/
abbrev GoString := List Byte

/-- Go conversion `[]byte(s)`: a fresh slice holding the bytes of the string. -/
def bytesOfString (s : GoString) : List Byte := s

/-- The Go string written as the literal `s` in a (UTF-8 encoded) source file. -/
def goString (s : String) : GoString :=
  s.toUTF8.data.toList.map (fun b => byteOf b.toNat)

/-- Source `type Sequence uint32` (protocol.go:50): an unsigned 32-bit value. -/
structure Sequence where
  val : Nat
  isLt : val < 2 ^ 32

/-! ## Declarations of the package that are outside `protocol.go` -/

/-- Modelled from the spec: the declaration of `Packet` is missing from the
source.  Spec §3: "an ordered sequence of bytes representing one protocol
datagram (header + payload)". -/
abbrev Packet := List Byte

/-- Modelled from the spec: the declaration of `Type` is missing from the
source.  Spec §3: "enumerated tag ... transmitted as a single byte".  The tag
is kept as an unsigned integer of unspecified width, since Go lets a caller
pass any value of the type to `BuildPacket`; `byte(t)` is `byteOf t.val`. -/
structure PacketType where
  val : Nat
deriving DecidableEq

/-- Modelled from the spec: the constant `Login` is missing from the source.
Spec §6: "`0x00 = Login`". -/
def Login : PacketType := ⟨0x00⟩

/-- Modelled from the spec: the constant `Command` is missing from the source.
Spec §6: "`0x01 = Command`". -/
def Command : PacketType := ⟨0x01⟩

/-- Modelled from the spec: the constant `ServerMessage` is missing from the
source.  Spec §6: "`0x02 = ServerMessage`". -/
def ServerMessage : PacketType := ⟨0x02⟩

/-- The closed set of tags the spec names: `Login`, `Command`, `ServerMessage`. -/
def PacketType.Valid (t : PacketType) : Prop :=
  t = Login ∨ t = Command ∨ t = ServerMessage

instance (t : PacketType) : Decidable t.Valid := by
  unfold PacketType.Valid; infer_instance

/-! ### CRC-32 -/

/-- The reversed generator polynomial of the standard CRC-32 (IEEE 802.3). -/
def crcPoly : Nat := 0xEDB88320

/-- One bit of the reflected CRC-32 shift register. -/
def crcBit (s : Nat) : Nat :=
  if s % 2 = 1 then (s / 2) ^^^ crcPoly else s / 2

/-- Feed one byte into the CRC-32 shift register: xor it in, then shift 8 bits. -/
def crcByte (s : Nat) (b : Byte) : Nat :=
  crcBit (crcBit (crcBit (crcBit (crcBit (crcBit (crcBit (crcBit (s ^^^ b.val))))))))

/-- Feed a byte sequence into the CRC-32 shift register, first byte first. -/
def crcUpdate (s : Nat) (bs : List Byte) : Nat := bs.foldl crcByte s

/-- The standard CRC-32: register preset to all ones, result complemented. -/
def crc32 (bs : List Byte) : Nat := crcUpdate 0xFFFFFFFF bs ^^^ 0xFFFFFFFF

/-- Modelled from the spec: the function `makeChecksum` is missing from the
source.  Spec §4.2: "a standard 32-bit cyclic-redundancy checksum (CRC-32 ...)
over the given byte sequence".  The result is a `uint32`. -/
def makeChecksum (data : List Byte) : Nat := crc32 data

/-- The 4 bytes of a 32-bit value, least significant byte first. -/
def putUint32LE (v : Nat) : List Byte :=
  [byteOf v, byteOf (v / 2 ^ 8), byteOf (v / 2 ^ 16), byteOf (v / 2 ^ 24)]

/-- The spec's `checksum(bytes) → 4-byte value` (§4.2): the CRC-32 of the
bytes in little-endian encoding. -/
def checksum (data : List Byte) : List Byte := putUint32LE (makeChecksum data)

/-- Modelled from the spec: the function `buildHeader` is missing from the
source.  Spec §6: "Protocol marker: 2 fixed bytes (`'B'`, `'E'`)", then
"Checksum: 4 bytes ... (little-endian)". -/
def buildHeader (checksum : Nat) : List Byte :=
  [charByte 'B', charByte 'E'] ++ putUint32LE checksum

/-! ## The builders of `protocol.go` -/

/-- Method `BuildPacket` (protocol.go:53-59). -/
def BuildPacket (data : List Byte) (t : PacketType) : Packet :=
  let data := [(0xFF : Byte), byteOf t.val] ++ data
  let checksum := makeChecksum data
  let header := buildHeader checksum
  header ++ data

/-- Method `BuildLoginPacket` (protocol.go:62-64). -/
def BuildLoginPacket (pw : GoString) : Packet :=
  BuildPacket (bytesOfString pw) Login

/-- Method `BuildCmdPacket` (protocol.go:67-69). -/
def BuildCmdPacket (cmd : List Byte) (seq : Sequence) : Packet :=
  BuildPacket ([byteOf seq.val] ++ cmd) Command

/-- Method `BuildKeepAlivePacket` (protocol.go:72-74). -/
def BuildKeepAlivePacket (seq : Sequence) : Packet :=
  BuildPacket [byteOf seq.val] Command

/-- Method `BuildMsgAckPacket` (protocol.go:77-79). -/
def BuildMsgAckPacket (seq : Sequence) : Packet :=
  BuildPacket [byteOf seq.val] ServerMessage

/-! ## The inspector `Verify` -/

/-- The error kinds of spec §7 that `Verify` can return. -/
inductive ProtocolError where
  | malformedPacket
deriving DecidableEq

/-- Modelled from the spec: the minimum header length is missing from the
source.  Spec §3: the header is the 2-byte protocol marker, the 4-byte checksum
and the 1-byte framing marker; §8: "Truncated packet (fewer than 7 bytes)". -/
def minHeaderLength : Nat := 7

/-- Modelled from the spec: the method `Verify` is declared in the `Protocol`
interface (protocol.go:21-22) but its body is missing from the source.
Spec §4.3: "fails with a malformed-packet error if the packet is shorter than
the minimum header length, if the 2-byte protocol marker does not match, if the
recomputed checksum does not equal the embedded checksum, or if the framing
marker byte is missing/misplaced.  Returns nil otherwise."  The checksum is
recomputed over everything following the checksum field (§3, §4.2). -/
def Verify (p : Packet) : Except ProtocolError Unit :=
  if p.length < minHeaderLength then .error .malformedPacket
  else if p.take 2 ≠ [charByte 'B', charByte 'E'] then .error .malformedPacket
  else if checksum (p.drop 6) ≠ (p.drop 2).take 4 then .error .malformedPacket
  else if p[6]? ≠ some (0xFF : Byte) then .error .malformedPacket
  else .ok ()

/-! ## Properties stated by the specification -/

/-- The checksum invariant of spec §3: the checksum field (bytes 2..5) is the
checksum of everything that follows it (bytes 6..end). -/
def ChecksumInvariant (p : Packet) : Prop :=
  (p.drop 2).take 4 = checksum (p.drop 6)

instance (p : Packet) : Decidable (ChecksumInvariant p) := by
  unfold ChecksumInvariant; infer_instance

/-- The reading of spec §6 "CRC-32 over bytes 7..end" with bytes counted from 0:
the checksum field is the checksum of the type tag and the payload only. -/
def ChecksumOverBytesFrom7 (p : Packet) : Prop :=
  (p.drop 2).take 4 = checksum (p.drop 7)

instance (p : Packet) : Decidable (ChecksumOverBytesFrom7 p) := by
  unfold ChecksumOverBytesFrom7; infer_instance

/-! ## Single-bit corruption of a packet -/

/-- Byte `b` with bit `j` (0 = least significant) inverted: Go `b ^ (1 << j)`. -/
def flipBit (b : Byte) (j : Nat) : Byte := byteOf (b.val ^^^ 2 ^ j)

/-- Packet `p` with bit `j` of the byte at index `k` inverted; a packet with no
byte at index `k` is left as it is. -/
def flipBitAt : Packet → Nat → Nat → Packet
  | [], _, _ => []
  | b :: bs, 0, j => flipBit b j :: bs
  | b :: bs, k + 1, j => b :: flipBitAt bs k j

/-! ## Basic facts -/

theorem byteOf_val (n : Nat) : (byteOf n).val = n % 256 := rfl

theorem charByte_B : charByte 'B' = (0x42 : Byte) := by decide

theorem charByte_E : charByte 'E' = (0x45 : Byte) := by decide

theorem byteOf_congr {m n : Nat} (h : m % 256 = n % 256) : byteOf m = byteOf n :=
  Fin.ext h

theorem putUint32LE_length (v : Nat) : (putUint32LE v).length = 4 := rfl

/-- The standard check value of CRC-32: the checksum of the ASCII digits 1..9. -/
theorem crc32_check_value : crc32 (goString "123456789") = 0xCBF43926 := by
  set_option maxRecDepth 8000 in decide

theorem crc32_nil : crc32 [] = 0 := by decide

/-- A built packet spelled out byte by byte. -/
theorem BuildPacket_bytes (data : List Byte) (t : PacketType) :
    BuildPacket data t
      = charByte 'B' :: charByte 'E'
        :: byteOf (makeChecksum ((0xFF : Byte) :: byteOf t.val :: data))
        :: byteOf (makeChecksum ((0xFF : Byte) :: byteOf t.val :: data) / 2 ^ 8)
        :: byteOf (makeChecksum ((0xFF : Byte) :: byteOf t.val :: data) / 2 ^ 16)
        :: byteOf (makeChecksum ((0xFF : Byte) :: byteOf t.val :: data) / 2 ^ 24)
        :: (0xFF : Byte) :: byteOf t.val :: data := rfl

theorem BuildPacket_drop6 (data : List Byte) (t : PacketType) :
    (BuildPacket data t).drop 6 = (0xFF : Byte) :: byteOf t.val :: data := rfl

theorem BuildPacket_get0 (data : List Byte) (t : PacketType) :
    (BuildPacket data t)[0]? = some (charByte 'B') := by
  simp [BuildPacket_bytes]

theorem BuildPacket_get1 (data : List Byte) (t : PacketType) :
    (BuildPacket data t)[1]? = some (charByte 'E') := by
  simp [BuildPacket_bytes]

theorem BuildPacket_get6 (data : List Byte) (t : PacketType) :
    (BuildPacket data t)[6]? = some (0xFF : Byte) := by
  simp [BuildPacket_bytes]

theorem BuildPacket_get7 (data : List Byte) (t : PacketType) :
    (BuildPacket data t)[7]? = some (byteOf t.val) := by
  simp [BuildPacket_bytes]

theorem BuildPacket_get8 (b : Byte) (data : List Byte) (t : PacketType) :
    (BuildPacket (b :: data) t)[8]? = some b := by
  simp [BuildPacket_bytes]

theorem BuildPacket_field (data : List Byte) (t : PacketType) :
    ((BuildPacket data t).drop 2).take 4
      = checksum ((0xFF : Byte) :: byteOf t.val :: data) := rfl

theorem BuildPacket_checksumInvariant (data : List Byte) (t : PacketType) :
    ChecksumInvariant (BuildPacket data t) := by
  unfold ChecksumInvariant
  rw [BuildPacket_field, BuildPacket_drop6]

theorem Verify_nil : Verify [] = .error .malformedPacket := rfl

/-- A packet whose checksum field was zeroed is rejected by `Verify`. -/
theorem Verify_rejects_bad_checksum :
    Verify [0x42, 0x45, 0x00, 0x00, 0x00, 0x00, 0xFF, 0x00] = .error .malformedPacket := by
  have h : checksum [(0xFF : Byte), 0x00] ≠ [0x00, 0x00, 0x00, 0x00] := by decide
  simp [Verify, minHeaderLength, charByte_B, charByte_E, h]

/-- The four checks of `Verify`: a packet is accepted exactly when it has at
least 7 bytes, starts with `'B','E'`, carries in bytes 2..5 the checksum of
bytes 6..end, and has the framing marker `0xFF` at byte 6. -/
theorem Verify_ok_iff (p : Packet) :
    Verify p = .ok () ↔
      minHeaderLength ≤ p.length
        ∧ p.take 2 = [charByte 'B', charByte 'E']
        ∧ checksum (p.drop 6) = (p.drop 2).take 4
        ∧ p[6]? = some (0xFF : Byte) := by
  unfold Verify
  by_cases h1 : p.length < minHeaderLength
  · simp [h1]
  · by_cases h2 : p.take 2 = [charByte 'B', charByte 'E']
    · by_cases h3 : checksum (p.drop 6) = (p.drop 2).take 4
      · by_cases h4 : p[6]? = some (0xFF : Byte)
        · simp [h1, h2, h3, h4, Nat.le_of_not_lt h1]
        · simp [h1, h2, h3, h4]
      · simp [h1, h2, h3]
    · simp [h1, h2]

theorem Verify_short (p : Packet) (h : p.length < 7) :
    Verify p = .error .malformedPacket := by
  simp [Verify, minHeaderLength, h]

/-! ## Builders: structure of the packets -/

/-- C1: for every byte sequence `data` and every Type `t`, `BuildPacket data t`
is `buildHeader (makeChecksum body) ++ body` with `body = [0xFF, byte t] ++ data`;
with the header being the marker `'B','E'` followed by the 4 checksum bytes, the
packet is `['B','E'] ++ checksum body ++ [0xFF, byte t] ++ data`, the checksum
being taken over the marker, the type byte and the data in that order. -/
theorem BuildPacket_eq_header_body (data : List Byte) (t : PacketType) :
    BuildPacket data t
        = buildHeader (makeChecksum ([(0xFF : Byte), byteOf t.val] ++ data))
            ++ ([(0xFF : Byte), byteOf t.val] ++ data)
      ∧ BuildPacket data t
        = [charByte 'B', charByte 'E']
            ++ checksum ([(0xFF : Byte), byteOf t.val] ++ data)
            ++ [(0xFF : Byte), byteOf t.val] ++ data
      ∧ (checksum ([(0xFF : Byte), byteOf t.val] ++ data)).length = 4 :=
  ⟨rfl, rfl, rfl⟩

/-- C2: every packet produced by any of the five builders satisfies the checksum
invariant: the 4-byte checksum field (bytes 2..5) equals the little-endian
CRC-32 of everything after it (bytes 6..end), and for `BuildPacket` those bytes
are the framing marker, the type byte and the payload. -/
theorem builders_checksum_invariant (data : List Byte) (t : PacketType)
    (pw : GoString) (cmd : List Byte) (seq : Sequence) :
    (((BuildPacket data t).drop 2).take 4 = checksum ((BuildPacket data t).drop 6)
        ∧ (BuildPacket data t).drop 6 = [(0xFF : Byte), byteOf t.val] ++ data)
      ∧ ((BuildLoginPacket pw).drop 2).take 4 = checksum ((BuildLoginPacket pw).drop 6)
      ∧ ((BuildCmdPacket cmd seq).drop 2).take 4
          = checksum ((BuildCmdPacket cmd seq).drop 6)
      ∧ ((BuildKeepAlivePacket seq).drop 2).take 4
          = checksum ((BuildKeepAlivePacket seq).drop 6)
      ∧ ((BuildMsgAckPacket seq).drop 2).take 4
          = checksum ((BuildMsgAckPacket seq).drop 6) :=
  ⟨⟨BuildPacket_checksumInvariant data t, rfl⟩,
    BuildPacket_checksumInvariant _ _, BuildPacket_checksumInvariant _ _,
    BuildPacket_checksumInvariant _ _, BuildPacket_checksumInvariant _ _⟩

/-- C3: `BuildCmdPacket cmd seq` is `BuildPacket ([seq mod 256] ++ cmd) Command`;
the byte at index 8 is `seq mod 256`, the type tag at index 7 is the Command tag
`0x01`, and the bytes from index 9 to the end are exactly `cmd`. -/
theorem BuildCmdPacket_spec (cmd : List Byte) (seq : Sequence) :
    BuildCmdPacket cmd seq = BuildPacket ([byteOf seq.val] ++ cmd) Command
      ∧ (byteOf seq.val).val = seq.val % 256
      ∧ (BuildCmdPacket cmd seq)[8]? = some (byteOf seq.val)
      ∧ (BuildCmdPacket cmd seq)[7]? = some (byteOf Command.val)
      ∧ byteOf Command.val = (0x01 : Byte)
      ∧ (BuildCmdPacket cmd seq).drop 9 = cmd :=
  ⟨rfl, rfl, BuildPacket_get8 _ _ _, BuildPacket_get7 _ _, rfl, rfl⟩

/-- C4: `BuildLoginPacket pw` is `BuildPacket (bytes of pw) Login`: bytes 0-1 are
`'B','E'`, byte 6 is `0xFF`, byte 7 is `0x00` (the Login tag), and the bytes from
index 8 to the end are exactly the bytes of `pw`, whatever its length. -/
theorem BuildLoginPacket_spec (pw : GoString) :
    BuildLoginPacket pw = BuildPacket (bytesOfString pw) Login
      ∧ (BuildLoginPacket pw)[0]? = some (charByte 'B')
      ∧ (BuildLoginPacket pw)[1]? = some (charByte 'E')
      ∧ (BuildLoginPacket pw)[6]? = some (0xFF : Byte)
      ∧ (BuildLoginPacket pw)[7]? = some (0x00 : Byte)
      ∧ (BuildLoginPacket pw).drop 8 = pw :=
  ⟨rfl, BuildPacket_get0 _ _, BuildPacket_get1 _ _, BuildPacket_get6 _ _,
    BuildPacket_get7 _ _, rfl⟩

/-- Witness of C4 at the password "secret": the login packet byte by byte, and
its bytes from index 8 on. -/
theorem BuildLoginPacket_secret :
    BuildLoginPacket (goString "secret")
        = [0x42, 0x45, 0xC9, 0x90, 0x09, 0xAE, 0xFF, 0x00,
            0x73, 0x65, 0x63, 0x72, 0x65, 0x74]
      ∧ (BuildLoginPacket (goString "secret")).drop 8 = goString "secret" :=
  ⟨by set_option maxRecDepth 8000 in decide,
    (BuildLoginPacket_spec (goString "secret")).2.2.2.2.2⟩

/-- C5: a keep-alive is an empty command: `BuildKeepAlivePacket seq` is equal to
`BuildCmdPacket [] seq`, a Command-type packet whose whole payload is the single
byte `seq mod 256`. -/
theorem BuildKeepAlivePacket_eq_empty_cmd (seq : Sequence) :
    BuildKeepAlivePacket seq = BuildCmdPacket [] seq
      ∧ (BuildKeepAlivePacket seq)[7]? = some (byteOf Command.val)
      ∧ (BuildKeepAlivePacket seq).drop 8 = [byteOf seq.val]
      ∧ (byteOf seq.val).val = seq.val % 256 :=
  ⟨rfl, BuildPacket_get7 _ _, rfl, rfl⟩

/-- C6: `BuildMsgAckPacket seq` is `BuildPacket [seq mod 256] ServerMessage`: its
type tag (byte 7) is the ServerMessage tag `0x02` and its whole payload is the
single byte `seq mod 256` at index 8. -/
theorem BuildMsgAckPacket_spec (seq : Sequence) :
    BuildMsgAckPacket seq = BuildPacket [byteOf seq.val] ServerMessage
      ∧ (BuildMsgAckPacket seq)[7]? = some (0x02 : Byte)
      ∧ (BuildMsgAckPacket seq).drop 8 = [byteOf seq.val]
      ∧ (BuildMsgAckPacket seq)[8]? = some (byteOf seq.val)
      ∧ (byteOf seq.val).val = seq.val % 256 :=
  ⟨rfl, BuildPacket_get7 _ _, rfl, BuildPacket_get8 _ _ _, rfl⟩

/-- C7: only the low 8 bits of a Sequence are transmitted: two sequence values
that agree modulo 256 give the same command, keep-alive and acknowledgement
packets, and the sequence byte written is `s mod 256`. -/
theorem builders_seq_mod_256 (cmd : List Byte) (s1 s2 : Sequence)
    (h : s1.val % 256 = s2.val % 256) :
    BuildCmdPacket cmd s1 = BuildCmdPacket cmd s2
      ∧ BuildKeepAlivePacket s1 = BuildKeepAlivePacket s2
      ∧ BuildMsgAckPacket s1 = BuildMsgAckPacket s2
      ∧ ((BuildCmdPacket cmd s1)[8]?).map Fin.val = some (s1.val % 256)
      ∧ ((BuildKeepAlivePacket s1)[8]?).map Fin.val = some (s1.val % 256)
      ∧ ((BuildMsgAckPacket s1)[8]?).map Fin.val = some (s1.val % 256) := by
  have hb : byteOf s1.val = byteOf s2.val := byteOf_congr h
  have h8 : ∀ (data : List Byte) (t : PacketType),
      ((BuildPacket (byteOf s1.val :: data) t)[8]?).map Fin.val = some (s1.val % 256) := by
    intro data t
    rw [BuildPacket_get8]; rfl
  refine ⟨?_, ?_, ?_, h8 _ _, h8 _ _, h8 _ _⟩
  · unfold BuildCmdPacket; rw [hb]
  · unfold BuildKeepAlivePacket; rw [hb]
  · unfold BuildMsgAckPacket; rw [hb]

/-- Witness of C7 at the sequence values 5 and 261 = 5 + 256. -/
theorem builders_seq_mod_256_witness :
    BuildCmdPacket [0x41] ⟨5, by decide⟩ = BuildCmdPacket [0x41] ⟨261, by decide⟩
      ∧ BuildKeepAlivePacket ⟨5, by decide⟩ = BuildKeepAlivePacket ⟨261, by decide⟩
      ∧ BuildMsgAckPacket ⟨5, by decide⟩ = BuildMsgAckPacket ⟨261, by decide⟩
      ∧ ((BuildCmdPacket [0x41] ⟨5, by decide⟩)[8]?).map Fin.val = some (5 % 256)
      ∧ ((BuildKeepAlivePacket ⟨5, by decide⟩)[8]?).map Fin.val = some (5 % 256)
      ∧ ((BuildMsgAckPacket ⟨5, by decide⟩)[8]?).map Fin.val = some (5 % 256) :=
  builders_seq_mod_256 [0x41] ⟨5, by decide⟩ ⟨261, by decide⟩ (by decide)

/-- C8: for a valid Type `t` (Login, Command or ServerMessage), byte 6 of
`BuildPacket data t` is the framing marker `0xFF` and byte 7 is the tag of `t`,
one of `0x00`, `0x01`, `0x02`; the same holds for the packets of
`BuildLoginPacket`, `BuildCmdPacket`, `BuildKeepAlivePacket` and
`BuildMsgAckPacket`. -/
theorem builders_marker_and_tag (data : List Byte) (t : PacketType)
    (pw : GoString) (cmd : List Byte) (seq : Sequence) (h : t.Valid) :
    ((BuildPacket data t)[6]? = some (0xFF : Byte)
        ∧ (BuildPacket data t)[7]? = some (byteOf t.val)
        ∧ (t = Login ∧ byteOf t.val = (0x00 : Byte)
            ∨ t = Command ∧ byteOf t.val = (0x01 : Byte)
            ∨ t = ServerMessage ∧ byteOf t.val = (0x02 : Byte)))
      ∧ ((BuildLoginPacket pw)[6]? = some (0xFF : Byte)
          ∧ (BuildLoginPacket pw)[7]? = some (0x00 : Byte))
      ∧ ((BuildCmdPacket cmd seq)[6]? = some (0xFF : Byte)
          ∧ (BuildCmdPacket cmd seq)[7]? = some (0x01 : Byte))
      ∧ ((BuildKeepAlivePacket seq)[6]? = some (0xFF : Byte)
          ∧ (BuildKeepAlivePacket seq)[7]? = some (0x01 : Byte))
      ∧ ((BuildMsgAckPacket seq)[6]? = some (0xFF : Byte)
          ∧ (BuildMsgAckPacket seq)[7]? = some (0x02 : Byte)) := by
  refine ⟨⟨BuildPacket_get6 _ _, BuildPacket_get7 _ _, ?_⟩,
    ⟨BuildPacket_get6 _ _, BuildPacket_get7 _ _⟩, ⟨BuildPacket_get6 _ _, BuildPacket_get7 _ _⟩,
    ⟨BuildPacket_get6 _ _, BuildPacket_get7 _ _⟩, ⟨BuildPacket_get6 _ _, BuildPacket_get7 _ _⟩⟩
  rcases h with h | h | h
  · exact Or.inl ⟨h, by rw [h]; rfl⟩
  · exact Or.inr (Or.inl ⟨h, by rw [h]; rfl⟩)
  · exact Or.inr (Or.inr ⟨h, by rw [h]; rfl⟩)

/-- Witness of C8 at the Type `ServerMessage` with payload `[0x07]`. -/
theorem builders_marker_and_tag_witness :
    ServerMessage.Valid
      ∧ (BuildPacket [0x07] ServerMessage)[6]? = some (0xFF : Byte)
      ∧ (BuildPacket [0x07] ServerMessage)[7]? = some (0x02 : Byte) :=
  ⟨by decide,
    (builders_marker_and_tag [0x07] ServerMessage [] [] ⟨0, by decide⟩ (by decide)).1.1,
    (builders_marker_and_tag [0x07] ServerMessage [] [] ⟨0, by decide⟩ (by decide)).1.2.1⟩

/-! ## Checksum coverage -/

/-- C9, as stated, fails: for the empty payload and Type `Login` the checksum
field is `8D EF FD D2`, the CRC-32 of bytes 6..end `FF 00`, while the CRC-32 of
bytes 7..end `00` is `8D EF 02 D2`. -/
theorem BuildPacket_checksum_not_over_bytes_from_7 :
    BuildPacket [] Login = [0x42, 0x45, 0x8D, 0xEF, 0xFD, 0xD2, 0xFF, 0x00]
      ∧ (BuildPacket [] Login).drop 7 = [0x00]
      ∧ checksum ((BuildPacket [] Login).drop 7) = [0x8D, 0xEF, 0x02, 0xD2]
      ∧ ¬ ChecksumOverBytesFrom7 (BuildPacket [] Login) := by
  decide

/-- C9, amended: for every `data` and Type `t`, the 4-byte checksum field of
`BuildPacket data t` is the little-endian CRC-32 of the packet's bytes 6..end
(counted from 0): the framing marker `0xFF` at byte 6, the type tag at byte 7,
then the payload. -/
theorem BuildPacket_checksum_over_bytes_from_6 (data : List Byte) (t : PacketType) :
    ((BuildPacket data t).drop 2).take 4 = putUint32LE (crc32 ((BuildPacket data t).drop 6))
      ∧ (BuildPacket data t).drop 6 = (0xFF : Byte) :: byteOf t.val :: data
      ∧ (BuildPacket data t)[6]? = some (0xFF : Byte)
      ∧ (BuildPacket data t)[7]? = some (byteOf t.val)
      ∧ (BuildPacket data t).drop 8 = data :=
  ⟨BuildPacket_checksumInvariant data t, rfl, BuildPacket_get6 _ _, BuildPacket_get7 _ _, rfl⟩

/-! ## Round trip through `Verify` -/

/-- C10: for any byte payload `d` and any Type `t`, `Verify (BuildPacket d t)`
succeeds (returns nil). -/
theorem Verify_BuildPacket (d : List Byte) (t : PacketType) :
    Verify (BuildPacket d t) = .ok () := by
  have h1 : ¬ (BuildPacket d t).length < minHeaderLength := by
    simp [BuildPacket_bytes, minHeaderLength]
  have h2 : (BuildPacket d t).take 2 = [charByte 'B', charByte 'E'] := rfl
  have h3 : checksum ((BuildPacket d t).drop 6) = ((BuildPacket d t).drop 2).take 4 := rfl
  have h4 : (BuildPacket d t)[6]? = some (0xFF : Byte) := BuildPacket_get6 d t
  simp [Verify, h1, h2, h3, h4]

/-! ## CRC-32 detects a change of one byte -/

theorem xor_crcPoly_bounds {x : Nat} (h : x < 2 ^ 31) :
    2 ^ 31 ≤ x ^^^ crcPoly ∧ x ^^^ crcPoly < 2 ^ 32 := by
  constructor
  · apply Nat.testBit_implies_ge
    rw [Nat.testBit_xor, Nat.testBit_lt_two_pow h]
    decide
  · exact Nat.xor_lt_two_pow (by omega) (by decide)

theorem crcBit_lt {s : Nat} (h : s < 2 ^ 32) : crcBit s < 2 ^ 32 := by
  unfold crcBit
  split
  · exact (xor_crcPoly_bounds (by omega)).2
  · omega

theorem crcBit_inj {s s' : Nat} (h : s < 2 ^ 32) (h' : s' < 2 ^ 32)
    (e : crcBit s = crcBit s') : s = s' := by
  have b := xor_crcPoly_bounds (x := s / 2) (by omega)
  have b' := xor_crcPoly_bounds (x := s' / 2) (by omega)
  unfold crcBit at e
  split at e <;> split at e
  · have := Nat.xor_left_inj.mp e
    omega
  · omega
  · omega
  · omega

theorem crcByte_lt {s : Nat} (b : Byte) (h : s < 2 ^ 32) : crcByte s b < 2 ^ 32 := by
  have h0 : s ^^^ b.val < 2 ^ 32 := Nat.xor_lt_two_pow h (by have := b.isLt; omega)
  unfold crcByte
  exact crcBit_lt (crcBit_lt (crcBit_lt (crcBit_lt (crcBit_lt (crcBit_lt
    (crcBit_lt (crcBit_lt h0)))))))

theorem crcByte_inj {s s' : Nat} {b b' : Byte} (h : s < 2 ^ 32) (h' : s' < 2 ^ 32)
    (e : crcByte s b = crcByte s' b') : s ^^^ b.val = s' ^^^ b'.val := by
  have h0 : s ^^^ b.val < 2 ^ 32 := Nat.xor_lt_two_pow h (by have := b.isLt; omega)
  have k0 : s' ^^^ b'.val < 2 ^ 32 := Nat.xor_lt_two_pow h' (by have := b'.isLt; omega)
  have h1 := crcBit_lt h0
  have k1 := crcBit_lt k0
  have h2 := crcBit_lt h1
  have k2 := crcBit_lt k1
  have h3 := crcBit_lt h2
  have k3 := crcBit_lt k2
  have h4 := crcBit_lt h3
  have k4 := crcBit_lt k3
  have h5 := crcBit_lt h4
  have k5 := crcBit_lt k4
  have h6 := crcBit_lt h5
  have k6 := crcBit_lt k5
  have h7 := crcBit_lt h6
  have k7 := crcBit_lt k6
  unfold crcByte at e
  exact crcBit_inj h0 k0 (crcBit_inj h1 k1 (crcBit_inj h2 k2 (crcBit_inj h3 k3
    (crcBit_inj h4 k4 (crcBit_inj h5 k5 (crcBit_inj h6 k6 (crcBit_inj h7 k7 e)))))))

theorem crcUpdate_lt (bs : List Byte) {s : Nat} (h : s < 2 ^ 32) :
    crcUpdate s bs < 2 ^ 32 := by
  induction bs generalizing s with
  | nil => exact h
  | cons b bs ih => exact ih (crcByte_lt b h)

theorem crcUpdate_append (s : Nat) (xs ys : List Byte) :
    crcUpdate s (xs ++ ys) = crcUpdate (crcUpdate s xs) ys := by
  unfold crcUpdate
  exact List.foldl_append _ _ _ _

theorem crcUpdate_cons (s : Nat) (b : Byte) (bs : List Byte) :
    crcUpdate s (b :: bs) = crcUpdate (crcByte s b) bs := rfl

theorem crcUpdate_state_inj (bs : List Byte) {s s' : Nat} (h : s < 2 ^ 32) (h' : s' < 2 ^ 32)
    (e : crcUpdate s bs = crcUpdate s' bs) : s = s' := by
  induction bs generalizing s s' with
  | nil => exact e
  | cons b bs ih =>
    have e1 := ih (crcByte_lt b h) (crcByte_lt b h') e
    exact Nat.xor_left_inj.mp (crcByte_inj h h' e1)

theorem crcUpdate_byte_inj (xs ys : List Byte) {b b' : Byte} {s : Nat} (h : s < 2 ^ 32)
    (e : crcUpdate s (xs ++ b :: ys) = crcUpdate s (xs ++ b' :: ys)) : b = b' := by
  rw [crcUpdate_append, crcUpdate_append, crcUpdate_cons, crcUpdate_cons] at e
  have hu := crcUpdate_lt xs h
  have e1 := crcUpdate_state_inj ys (crcByte_lt b hu) (crcByte_lt b' hu) e
  exact Fin.ext (Nat.xor_right_inj.mp (crcByte_inj hu hu e1))

theorem crc32_lt (bs : List Byte) : crc32 bs < 2 ^ 32 :=
  Nat.xor_lt_two_pow (crcUpdate_lt bs (by decide)) (by decide)

theorem crc32_byte_inj (xs ys : List Byte) {b b' : Byte}
    (e : crc32 (xs ++ b :: ys) = crc32 (xs ++ b' :: ys)) : b = b' :=
  crcUpdate_byte_inj xs ys (by decide) (Nat.xor_left_inj.mp e)

theorem putUint32LE_inj {v v' : Nat} (h : v < 2 ^ 32) (h' : v' < 2 ^ 32)
    (e : putUint32LE v = putUint32LE v') : v = v' := by
  simp only [putUint32LE, List.cons.injEq, and_true] at e
  obtain ⟨e0, e1, e2, e3⟩ := e
  have f0 := congrArg Fin.val e0
  have f1 := congrArg Fin.val e1
  have f2 := congrArg Fin.val e2
  have f3 := congrArg Fin.val e3
  simp only [byteOf_val] at f0 f1 f2 f3
  norm_num at f0 f1 f2 f3 h h'
  omega

theorem checksum_byte_inj (xs ys : List Byte) {b b' : Byte}
    (e : checksum (xs ++ b :: ys) = checksum (xs ++ b' :: ys)) : b = b' :=
  crc32_byte_inj xs ys (putUint32LE_inj (crc32_lt _) (crc32_lt _) e)

theorem flipBit_ne (b : Byte) {j : Nat} (hj : j < 8) : flipBit b j ≠ b := by
  intro e
  have hp : 2 ^ j < 2 ^ 8 := Nat.pow_lt_pow_right (by decide) hj
  have hx : b.val ^^^ 2 ^ j < 2 ^ 8 := Nat.xor_lt_two_pow b.isLt hp
  have e1 := congrArg Fin.val e
  simp only [flipBit, byteOf_val] at e1
  rw [Nat.mod_eq_of_lt (show b.val ^^^ 2 ^ j < 256 from hx)] at e1
  have e2 : b.val ^^^ 2 ^ j = b.val ^^^ 0 := by rw [Nat.xor_zero]; exact e1
  have := Nat.xor_right_inj.mp e2
  have : 0 < 2 ^ j := Nat.two_pow_pos j
  omega

theorem flipBitAt_split (j : Nat) (l : List Byte) (i : Nat) (hi : i < l.length) :
    ∃ xs b ys, l = xs ++ b :: ys ∧ flipBitAt l i j = xs ++ flipBit b j :: ys := by
  induction l generalizing i with
  | nil => simp at hi
  | cons a l ih =>
    cases i with
    | zero => exact ⟨[], a, l, rfl, rfl⟩
    | succ i =>
      obtain ⟨xs, b, ys, h1, h2⟩ := ih i (by simpa using hi)
      exact ⟨a :: xs, b, ys, by rw [h1]; rfl, by
        show a :: flipBitAt l i j = _
        rw [h2]; rfl⟩

/-- A built packet with one payload bit inverted, spelled out byte by byte. -/
theorem flipBitAt_BuildPacket_bytes (data : List Byte) (t : PacketType) (i j : Nat) :
    flipBitAt (BuildPacket data t) (8 + i) j
      = charByte 'B' :: charByte 'E'
        :: byteOf (makeChecksum ((0xFF : Byte) :: byteOf t.val :: data))
        :: byteOf (makeChecksum ((0xFF : Byte) :: byteOf t.val :: data) / 2 ^ 8)
        :: byteOf (makeChecksum ((0xFF : Byte) :: byteOf t.val :: data) / 2 ^ 16)
        :: byteOf (makeChecksum ((0xFF : Byte) :: byteOf t.val :: data) / 2 ^ 24)
        :: (0xFF : Byte) :: byteOf t.val :: flipBitAt data i j := by
  rw [BuildPacket_bytes, Nat.add_comm]
  rfl

theorem checksum_flipBitAt_ne (data : List Byte) (t : PacketType) (i j : Nat)
    (hi : i < data.length) (hj : j < 8) :
    checksum ((0xFF : Byte) :: byteOf t.val :: data)
      ≠ checksum ((0xFF : Byte) :: byteOf t.val :: flipBitAt data i j) := by
  obtain ⟨xs, b, ys, hd, hf⟩ := flipBitAt_split j data i hi
  rw [hf, hd]
  intro e
  exact flipBit_ne b hj
    (checksum_byte_inj ((0xFF : Byte) :: byteOf t.val :: xs) ys e).symm

theorem BuildPacket_inj {d1 d2 : List Byte} {t1 t2 : PacketType}
    (h : BuildPacket d1 t1 = BuildPacket d2 t2) :
    d1 = d2 ∧ byteOf t1.val = byteOf t2.val := by
  have e := congrArg (List.drop 6) h
  rw [BuildPacket_drop6, BuildPacket_drop6] at e
  simp only [List.cons.injEq, true_and] at e
  exact ⟨e.2, e.1⟩

theorem BuildPacket_length (data : List Byte) (t : PacketType) :
    (BuildPacket data t).length = data.length + 8 := by
  simp [BuildPacket_bytes]

/-! ## Checksum sensitivity -/

/-- C11: for every `data`, every Type `t` and every bit position within the
payload of `p = BuildPacket data t` (bit `j < 8` of payload byte `i`, which is
byte `8 + i` of `p`), the packet obtained from `p` by inverting that one bit
fails `Verify`: the checksum embedded in `p` (bytes 2..5, left untouched)
differs from the CRC-32 recomputed over bytes 6..end of the altered packet. -/
theorem Verify_flipBitAt_payload (data : List Byte) (t : PacketType) (i j : Nat)
    (hi : i < data.length) (hj : j < 8) :
    Verify (flipBitAt (BuildPacket data t) (8 + i) j) = .error .malformedPacket
      ∧ ((BuildPacket data t).drop 2).take 4
          ≠ checksum ((flipBitAt (BuildPacket data t) (8 + i) j).drop 6)
      ∧ (flipBitAt (BuildPacket data t) (8 + i) j).take 8 = (BuildPacket data t).take 8
      ∧ (flipBitAt (BuildPacket data t) (8 + i) j).drop 8 = flipBitAt data i j
      ∧ flipBitAt data i j ≠ data := by
  have hne := checksum_flipBitAt_ne data t i j hi hj
  have h1 : ¬ (flipBitAt (BuildPacket data t) (8 + i) j).length < minHeaderLength := by
    rw [flipBitAt_BuildPacket_bytes]
    simp [minHeaderLength]
  have h2 : (flipBitAt (BuildPacket data t) (8 + i) j).take 2
      = [charByte 'B', charByte 'E'] := by
    rw [flipBitAt_BuildPacket_bytes]; rfl
  have h3 : ((flipBitAt (BuildPacket data t) (8 + i) j).drop 2).take 4
      = checksum ((0xFF : Byte) :: byteOf t.val :: data) := by
    rw [flipBitAt_BuildPacket_bytes]; rfl
  have h4 : (flipBitAt (BuildPacket data t) (8 + i) j).drop 6
      = (0xFF : Byte) :: byteOf t.val :: flipBitAt data i j := by
    rw [flipBitAt_BuildPacket_bytes]; rfl
  refine ⟨?_, ?_, ?_, ?_, ?_⟩
  · have h5 : checksum ((flipBitAt (BuildPacket data t) (8 + i) j).drop 6)
        ≠ ((flipBitAt (BuildPacket data t) (8 + i) j).drop 2).take 4 := by
      rw [h3, h4]; exact fun e => hne e.symm
    simp [Verify, h1, h2, h5]
  · rw [BuildPacket_field, h4]; exact hne
  · rw [flipBitAt_BuildPacket_bytes]; rfl
  · rw [flipBitAt_BuildPacket_bytes]; rfl
  · intro e
    rw [e] at hne
    exact hne rfl

/-- Witness of C11: bit 0 of the only payload byte of `BuildPacket [0x41] Command`
(byte 8 of the packet) is inverted. -/
theorem Verify_flipBitAt_payload_witness :
    0 < ([0x41] : List Byte).length ∧ 0 < 8
      ∧ flipBitAt (BuildPacket [0x41] Command) (8 + 0) 0
          = [0x42, 0x45, 0xB8, 0xAD, 0x19, 0x59, 0xFF, 0x01, 0x40]
      ∧ Verify (flipBitAt (BuildPacket [0x41] Command) (8 + 0) 0)
          = .error .malformedPacket :=
  ⟨by decide, by decide, by decide,
    (Verify_flipBitAt_payload [0x41] Command 0 0 (by decide) (by decide)).1⟩

/-! ## Lengths -/

/-- C12: `BuildPacket data t` has `len(data) + 8` bytes (6 header bytes, the
framing marker and the type byte); hence a login packet has `len(pw) + 8`
bytes, a command packet `len(cmd) + 9`, keep-alive and acknowledgement packets
exactly 9, and no builder emits a packet shorter than the 7-byte minimum that
`Verify` requires. -/
theorem builders_length (data : List Byte) (t : PacketType)
    (pw : GoString) (cmd : List Byte) (seq : Sequence) (c : Nat) :
    (buildHeader c).length = 6
      ∧ (BuildPacket data t).length = data.length + 8
      ∧ (BuildLoginPacket pw).length = pw.length + 8
      ∧ (BuildCmdPacket cmd seq).length = cmd.length + 9
      ∧ (BuildKeepAlivePacket seq).length = 9
      ∧ (BuildMsgAckPacket seq).length = 9
      ∧ minHeaderLength = 7
      ∧ minHeaderLength ≤ (BuildPacket data t).length
      ∧ minHeaderLength ≤ (BuildLoginPacket pw).length
      ∧ minHeaderLength ≤ (BuildCmdPacket cmd seq).length
      ∧ minHeaderLength ≤ (BuildKeepAlivePacket seq).length
      ∧ minHeaderLength ≤ (BuildMsgAckPacket seq).length := by
  have hL : (BuildLoginPacket pw).length = pw.length + 8 := BuildPacket_length _ _
  have hC : (BuildCmdPacket cmd seq).length = cmd.length + 9 := by
    unfold BuildCmdPacket
    rw [BuildPacket_length]
    simp
  have hK : (BuildKeepAlivePacket seq).length = 9 := BuildPacket_length _ _
  have hM : (BuildMsgAckPacket seq).length = 9 := BuildPacket_length _ _
  have hB := BuildPacket_length data t
  refine ⟨rfl, hB, hL, hC, hK, hM, rfl, ?_, ?_, ?_, ?_, ?_⟩ <;>
    simp only [minHeaderLength] <;> omega

/-! ## Injectivity -/

/-- C13: `BuildPacket` is injective: equal packets have equal payloads and equal
type bytes; so equal command packets have equal commands and sequence numbers
equal modulo 256, and a keep-alive packet is never equal to an acknowledgement
packet or to a login packet. -/
theorem BuildPacket_injective (data1 data2 : List Byte) (t1 t2 : PacketType)
    (c1 c2 : List Byte) (s1 s2 s s' : Sequence) (pw : GoString) :
    (BuildPacket data1 t1 = BuildPacket data2 t2 →
        data1 = data2 ∧ byteOf t1.val = byteOf t2.val)
      ∧ (BuildCmdPacket c1 s1 = BuildCmdPacket c2 s2 →
          c1 = c2 ∧ s1.val % 256 = s2.val % 256)
      ∧ BuildKeepAlivePacket s ≠ BuildMsgAckPacket s'
      ∧ BuildKeepAlivePacket s ≠ BuildLoginPacket pw := by
  refine ⟨BuildPacket_inj, ?_, ?_, ?_⟩
  · intro h
    have e := (BuildPacket_inj h).1
    simp only [List.singleton_append, List.cons.injEq] at e
    exact ⟨e.2, congrArg Fin.val e.1⟩
  · intro h
    have e := (BuildPacket_inj h).2
    exact absurd e (by decide)
  · intro h
    have e := (BuildPacket_inj h).2
    exact absurd e (by decide)

/-- Witness of C13: the Type values 1 and 257 have the same byte, so the two
packets are equal, and so are the command packets for sequence 5 and 261. -/
theorem BuildPacket_injective_witness :
    BuildPacket [0x41] ⟨1⟩ = BuildPacket [0x41] ⟨257⟩
      ∧ (([0x41] : List Byte) = [0x41]
          ∧ byteOf (PacketType.mk 1).val = byteOf (PacketType.mk 257).val)
      ∧ (([0x41] : List Byte) = [0x41] ∧ 5 % 256 = 261 % 256) :=
  ⟨by decide,
    (BuildPacket_injective [0x41] [0x41] ⟨1⟩ ⟨257⟩ [0x41] [0x41]
      ⟨5, by decide⟩ ⟨261, by decide⟩ ⟨0, by decide⟩ ⟨0, by decide⟩ []).1 (by decide),
    (BuildPacket_injective [0x41] [0x41] ⟨1⟩ ⟨257⟩ [0x41] [0x41]
      ⟨5, by decide⟩ ⟨261, by decide⟩ ⟨0, by decide⟩ ⟨0, by decide⟩ []).2.1 (by decide)⟩

end battleye
